import Mathlib

/-!
Verification development for the request-routing and dual-sink audit-logging
pipeline of the site-geav-api service (Go sources under internal/logger and
cmd/users). The Go code is shallowly embedded: Go maps become association
lists looked up by exact key equality, the wall clock becomes an explicit
tick function from call index to instant, and the fallible external
operations (CREATE TABLE, INSERT, PutMetricData) become oracle results of
type Except threaded in as inputs. A Go error value is represented by the
text its Error() accessor returns, since the logger only ever consumes that
text.
-/

namespace SiteGeav

/-- Models a Go interface value as stored in a metadata map
(map String interface). The constructor chanV stands for a value that
encoding/json refuses to marshal, such as a channel or a function value;
every other constructor marshals successfully. -/
inductive GoValue where
  | str (s : String)
  | intV (n : Int)
  | boolV (b : Bool)
  | chanV
  deriving DecidableEq, Repr

/-- A Go map with string keys, as an association list. Go map keys are
unique; lookup takes the first match, which agrees with that discipline. -/
abbrev AssocMap := List (String × GoValue)

/-- Go map indexing m[k] with comma-ok: the value when the key is present. -/
def lookupKey (m : AssocMap) (k : String) : Option GoValue :=
  (m.find? (fun p => p.1 == k)).map (fun p => p.2)

/-- A Go map variable of map type: none models the nil map, some models an
allocated (possibly empty) map. The distinction matters because logToDB
tests entry.Metadata against nil before marshaling. -/
abbrev GoMap := Option AssocMap

/-- A value stored in a Go context.Context. The constructor other stands for
any value whose dynamic type is neither string nor int, so that the failed
type assertions in the extraction functions can be exercised. -/
inductive CtxVal where
  | str (s : String)
  | intV (n : Int)
  | other
  deriving DecidableEq, Repr

/-- A Go context.Context: none models a nil context; some models a context
whose Value method resolves keys against the listed bindings, innermost
binding first, exactly as nested context.WithValue wrappers do. -/
abbrev GoContext := Option (List (String × CtxVal))

/-- Resolution of ctx.Value(k) on a non-nil context: first binding wins,
matching the innermost context.WithValue wrapper. -/
def ctxLookup (l : List (String × CtxVal)) (k : String) : Option CtxVal :=
  (l.find? (fun p => p.1 == k)).map (fun p => p.2)

/-- GetRequestIDFromContext from internal/logger/logger.go: nil context
yields the empty string; otherwise the value bound to the key requestID is
returned when its type assertion to string succeeds, and the empty string
otherwise. -/
def GetRequestIDFromContext (ctx : GoContext) : String :=
  match ctx with
  | none => ""
  | some l =>
    match ctxLookup l "requestID" with
    | some (CtxVal.str requestID) => requestID
    | _ => ""

/-- GetUserIDFromContext from internal/logger/logger.go: nil context yields
zero; otherwise the value bound to the key userID is returned when its type
assertion to int succeeds, and zero otherwise. -/
def GetUserIDFromContext (ctx : GoContext) : Int :=
  match ctx with
  | none => 0
  | some l =>
    match ctxLookup l "userID" with
    | some (CtxVal.intV userID) => userID
    | _ => 0

/-- LogLevel from internal/logger/logger.go, a string-typed enumeration. -/
inductive LogLevel where
  | DEBUG
  | INFO
  | WARN
  | ERROR
  | FATAL
  deriving DecidableEq, Repr

/-- The underlying string of a LogLevel value, as printed by a %s verb. -/
def LogLevel.toStr : LogLevel → String
  | .DEBUG => "DEBUG"
  | .INFO => "INFO"
  | .WARN => "WARN"
  | .ERROR => "ERROR"
  | .FATAL => "FATAL"

/-- LogEntry from internal/logger/logger.go. Timestamp is an abstract
instant delivered by the clock model. Error holds the text of the attached
Go error (none for a nil error): the pipeline only ever reads err.Error(),
so the text is a faithful representation. -/
structure LogEntry where
  Timestamp : Nat
  Level : LogLevel
  Message : String
  ServiceName : String
  RequestID : String
  UserID : Int
  Action : String := ""
  Resource : String := ""
  ResourceID : String := ""
  Metadata : GoMap := none
  Error : Option String := none
  deriving DecidableEq, Repr

/-- DBLogger from internal/logger/db_logger.go. The sql.DB handle is not a
value the logic inspects; its observable behaviour (results of the two
ExecContext calls) lives in DBEnv below. -/
structure DBLogger where
  serviceName : String
  tableName : String
  deriving DecidableEq, Repr

/-- CloudWatchLogger from internal/logger/db_logger.go (second file part).
The cloudwatch.Client handle is represented by the PutMetricData oracle
threaded into logToCloudWatch. -/
structure CloudWatchLogger where
  serviceName : String
  Namespace : String
  deriving DecidableEq, Repr

/-- DBLogger.createLogEntry: builds the entry from the common fields, reads
request id and user id out of the context, attaches the first variadic
metadata map when one was passed (the Go code indexes metadata[0] under a
len guard), and promotes the keys action, resource and resource_id to the
top-level fields when they hold string values. -/
def DBLogger.createLogEntry (l : DBLogger) (now : Nat) (ctx : GoContext)
    (level : LogLevel) (message : String) (err : Option String)
    (metadata : List GoMap) : LogEntry :=
  let entry : LogEntry :=
    { Timestamp := now, Level := level, Message := message,
      ServiceName := l.serviceName,
      RequestID := GetRequestIDFromContext ctx,
      UserID := GetUserIDFromContext ctx,
      Error := err }
  let entry :=
    match metadata with
    | [] => entry
    | m0 :: _ => { entry with Metadata := m0 }
  match entry.Metadata with
  | none => entry
  | some m =>
    let entry :=
      match lookupKey m "action" with
      | some (GoValue.str action) => { entry with Action := action }
      | _ => entry
    let entry :=
      match lookupKey m "resource" with
      | some (GoValue.str resource) => { entry with Resource := resource }
      | _ => entry
    match lookupKey m "resource_id" with
    | some (GoValue.str resourceID) => { entry with ResourceID := resourceID }
    | _ => entry

/-- CloudWatchLogger.createLogEntry: textually the same construction as the
DBLogger one, with this logger writing its own serviceName. -/
def CloudWatchLogger.createLogEntry (l : CloudWatchLogger) (now : Nat)
    (ctx : GoContext) (level : LogLevel) (message : String)
    (err : Option String) (metadata : List GoMap) : LogEntry :=
  let entry : LogEntry :=
    { Timestamp := now, Level := level, Message := message,
      ServiceName := l.serviceName,
      RequestID := GetRequestIDFromContext ctx,
      UserID := GetUserIDFromContext ctx,
      Error := err }
  let entry :=
    match metadata with
    | [] => entry
    | m0 :: _ => { entry with Metadata := m0 }
  match entry.Metadata with
  | none => entry
  | some m =>
    let entry :=
      match lookupKey m "action" with
      | some (GoValue.str action) => { entry with Action := action }
      | _ => entry
    let entry :=
      match lookupKey m "resource" with
      | some (GoValue.str resource) => { entry with Resource := resource }
      | _ => entry
    match lookupKey m "resource_id" with
    | some (GoValue.str resourceID) => { entry with ResourceID := resourceID }
    | _ => entry

/-- Models encoding/json marshaling of one metadata value. Formatting is
abstracted (the development only relies on success versus failure and on the
produced text being some string); failure occurs exactly on the unsupported
value kind, as in encoding/json. -/
def marshalValue : GoValue → Except String String
  | GoValue.str s => Except.ok ("\x22" ++ s ++ "\x22")
  | GoValue.intV n => Except.ok (toString n)
  | GoValue.boolV b => Except.ok (if b then "true" else "false")
  | GoValue.chanV => Except.error "json: unsupported type: chan"

/-- Models json.Marshal on a metadata map: fails as soon as some value in
the map is unsupported, succeeds otherwise. Key order and brace punctuation
are abstracted; no theorem below depends on the exact text. -/
def marshalMap : AssocMap → Except String String
  | [] => Except.ok ""
  | (k, v) :: rest => do
    let vs ← marshalValue v
    let restS ← marshalMap rest
    Except.ok ("\x22" ++ k ++ "\x22:" ++ vs ++ (if restS = "" then "" else ",") ++ restS)

/-- The always-marshalable scalar fields of a LogEntry as one JSON-like
line. The Error field carries the json tag minus and is omitted, matching
the struct tags in logger.go. -/
def entryScalarJSON (e : LogEntry) : String :=
  "\x22timestamp\x22:" ++ toString e.Timestamp ++
  ",\x22level\x22:\x22" ++ e.Level.toStr ++
  "\x22,\x22message\x22:\x22" ++ e.Message ++
  "\x22,\x22service_name\x22:\x22" ++ e.ServiceName ++
  "\x22,\x22request_id\x22:\x22" ++ e.RequestID ++
  "\x22,\x22user_id\x22:" ++ toString e.UserID ++
  ",\x22action\x22:\x22" ++ e.Action ++
  "\x22,\x22resource\x22:\x22" ++ e.Resource ++
  "\x22,\x22resource_id\x22:\x22" ++ e.ResourceID ++ "\x22"

/-- Models json.Marshal on a whole LogEntry, as used by logToCloudWatch.
With a nil metadata map the field is omitted (omitempty) and marshaling
succeeds; otherwise it succeeds exactly when the metadata map marshals. -/
def marshalEntry (e : LogEntry) : Except String String :=
  match e.Metadata with
  | none => Except.ok (entryScalarJSON e)
  | some m => (marshalMap m).map (fun ms => entryScalarJSON e ++ ",\x22metadata\x22:" ++ ms)

/-- One row as bound to the INSERT statement in logToDB. Metadata mirrors
the metadataJSON byte slice: database/sql maps a nil byte slice to SQL NULL
and a non-nil one to a JSONB value, so Option String with none for NULL is
the faithful image. ErrorMessage mirrors the errorMessage string variable:
a Go string parameter always binds a non-NULL TEXT value, so the code can
only ever supply some text here, never none; the column itself is nullable,
which is why the field is an Option. -/
structure InsertedRow where
  Timestamp : Nat
  Level : String
  Message : String
  ServiceName : String
  RequestID : String
  UserID : Int
  Action : String
  Resource : String
  ResourceID : String
  Metadata : Option String
  ErrorMessage : Option String
  deriving DecidableEq, Repr

/-- Results of the two database round trips performed by one logToDB call:
ensureRes is the outcome of the CREATE TABLE IF NOT EXISTS statement and
execRes the outcome of the INSERT statement, each carrying the text of the
driver error on failure. -/
structure DBEnv where
  ensureRes : Except String Unit
  execRes : Except String Unit

/-- Observable outcome of one logToDB call: lines printed to the fallback
console stream, in order, and the row inserted when the INSERT succeeded. -/
structure DBOut where
  console : List String := []
  inserted : Option InsertedRow := none
  deriving DecidableEq, Repr

/-- DBLogger.logToDB: first ensures the table (a failure prints and
returns), then marshals a non-nil metadata map (a failure prints and
returns), reduces a non-nil error to its message text and the nil error to
the zero-valued string, then executes the INSERT with those bindings (a
failure prints); no branch propagates an error to the caller. The
metadataJSON stage is the inline block of logToDB that leaves the byte
slice nil for a nil map and marshals otherwise, named here so theorems can
refer to it. -/
def metadataJSONOf (entry : LogEntry) : Except String (Option String) :=
  match entry.Metadata with
  | none => Except.ok none
  | some m => (marshalMap m).map some

/-- DBLogger.logToDB, with the metadataJSON stage factored as above. -/
def DBLogger.logToDB (l : DBLogger) (env : DBEnv) (entry : LogEntry) : DBOut :=
  match env.ensureRes with
  | Except.error e => { console := ["Error ensuring log table: " ++ e] }
  | Except.ok _ =>
    match metadataJSONOf entry with
    | Except.error e => { console := ["Error marshaling metadata: " ++ e] }
    | Except.ok metadataJSON =>
      let errorMessage : String :=
        match entry.Error with
        | none => ""
        | some msg => msg
      let row : InsertedRow :=
        { Timestamp := entry.Timestamp, Level := entry.Level.toStr,
          Message := entry.Message, ServiceName := entry.ServiceName,
          RequestID := entry.RequestID, UserID := entry.UserID,
          Action := entry.Action, Resource := entry.Resource,
          ResourceID := entry.ResourceID, Metadata := metadataJSON,
          ErrorMessage := some errorMessage }
      match env.execRes with
      | Except.error e => { console := ["Error inserting log entry: " ++ e] }
      | Except.ok _ => { inserted := some row }

/-- One severity call on the database sink: every one of the five methods
Debug, Info, Warn, Error and Fatal is createLogEntry at its level (the
first three with a nil error) followed by logToDB; this function is that
common body, with the level and the optional error as parameters. -/
def DBLogger.logCall (l : DBLogger) (env : DBEnv) (now : Nat)
    (ctx : GoContext) (level : LogLevel) (message : String)
    (err : Option String) (metadata : List GoMap) : DBOut :=
  l.logToDB env (l.createLogEntry now ctx level message err metadata)

/-- One metric datum as handed to cloudwatch PutMetricData. Value models
the constant aws.Float64 one as the count it denotes. -/
structure MetricDatum where
  Namespace : String
  MetricName : String
  Dimensions : List (String × String)
  Timestamp : Nat
  Value : Nat
  MUnit : String
  deriving DecidableEq, Repr

/-- The metric name computed at the top of putMetricData: the formatted
string level underscore resource, then a guard that would fall back to the
bare level string were the formatted name empty. The guard is kept exactly
as written in the source; note the formatted name always contains the
underscore, so the guard can never fire. -/
def metricNameOf (entry : LogEntry) : String :=
  let metricName := entry.Level.toStr ++ "_" ++ entry.Resource
  if metricName = "" then entry.Level.toStr else metricName

/-- The dimension list built by putMetricData: always ServiceName, then
Resource when non-empty, then Action when non-empty. -/
def dimensionsOf (l : CloudWatchLogger) (entry : LogEntry) : List (String × String) :=
  let dims := [("ServiceName", l.serviceName)]
  let dims := if entry.Resource ≠ "" then dims ++ [("Resource", entry.Resource)] else dims
  if entry.Action ≠ "" then dims ++ [("Action", entry.Action)] else dims

/-- The full datum putMetricData constructs and hands to the client. -/
def CloudWatchLogger.putMetricDatum (l : CloudWatchLogger) (entry : LogEntry) : MetricDatum :=
  { Namespace := l.Namespace, MetricName := metricNameOf entry,
    Dimensions := dimensionsOf l entry, Timestamp := entry.Timestamp,
    Value := 1, MUnit := "Count" }

/-- Observable outcome of one logToCloudWatch call: console lines in print
order, and the datum handed to PutMetricData when that call was reached
(none when entry marshaling failed before it). -/
structure CWOut where
  console : List String := []
  datum : Option MetricDatum := none
  deriving DecidableEq, Repr

/-- CloudWatchLogger.logToCloudWatch: marshals the entry (a failure prints
and returns before any metric is sent), then calls putMetricData (a remote
failure prints), then prints the JSON line; no branch propagates an error
to the caller. -/
def CloudWatchLogger.logToCloudWatch (l : CloudWatchLogger)
    (putRes : Except String Unit) (entry : LogEntry) : CWOut :=
  match marshalEntry entry with
  | Except.error e => { console := ["Error marshaling log entry: " ++ e] }
  | Except.ok jsonData =>
    let d := l.putMetricDatum entry
    match putRes with
    | Except.error e =>
      { console := ["Error sending metric to CloudWatch: " ++ e, jsonData], datum := some d }
    | Except.ok _ => { console := [jsonData], datum := some d }

/-- One severity call on the metrics sink, the common body of its five
methods, in the same way as DBLogger.logCall. -/
def CloudWatchLogger.logCall (l : CloudWatchLogger)
    (putRes : Except String Unit) (now : Nat) (ctx : GoContext)
    (level : LogLevel) (message : String) (err : Option String)
    (metadata : List GoMap) : CWOut :=
  l.logToCloudWatch putRes (l.createLogEntry now ctx level message err metadata)

/-- The slice of events.APIGatewayProxyRequest the router consults. Headers
is the Go map of header names to values, with keys exactly as delivered. -/
structure APIGatewayRequest where
  Headers : List (String × String)
  HTTPMethod : String := ""
  Resource : String := ""
  deriving DecidableEq, Repr

/-- Go map indexing request.Headers[k] with comma-ok: an exact, character
for character key comparison, as Go map lookup performs. -/
def headerLookup (hs : List (String × String)) (k : String) : Option String :=
  (hs.find? (fun p => p.1 == k)).map (fun p => p.2)

/-- The context-enrichment prefix of router in cmd/users/main.go: when the
header map holds the exact key x-request-id, its value is bound to the
context key requestID via context.WithValue (modelled as prepending the
binding, so it shadows outer bindings); otherwise the context is passed on
unchanged. No other binding is added, in particular none for userID. The
argument is the binding list of the non-nil context the Lambda runtime
hands to the router. -/
def routerContext (ctx : List (String × CtxVal)) (request : APIGatewayRequest) :
    List (String × CtxVal) :=
  match headerLookup request.Headers "x-request-id" with
  | some requestID => ("requestID", CtxVal.str requestID) :: ctx
  | none => ctx

/-- The five methods of the Logger interface, used to index same-named
dispatch in the composite sink. -/
inductive Method where
  | debugM
  | infoM
  | warnM
  | errorM
  | fatalM
  deriving DecidableEq, Repr

/-- Events observable while the composite sink dispatches one call: the
moment a sub-sink method is invoked, and any internal effect of that
sub-sink (for example a fallback console line reporting an internal
failure). -/
inductive TEvent where
  | invoked (sink : Nat) (m : Method)
  | internalLine (sink : Nat) (line : String)
  deriving DecidableEq, Repr

/-- An abstract sub-sink held by the composite logger: a value of the
Logger interface identified by its position, whose internal behaviour on
each method is an arbitrary list of internal effects; in particular a
sub-sink whose call fails internally and reports on its fallback channel is
one whose list is non-empty. -/
structure TraceSink where
  id : Nat
  internalFx : Method → List String

/-- Invoking one method on an abstract sub-sink: the invocation itself,
followed by whatever the sink does internally. -/
def TraceSink.invoke (s : TraceSink) (m : Method) : List TEvent :=
  TEvent.invoked s.id m :: (s.internalFx m).map (TEvent.internalLine s.id)

/-- The body shared by the five CompositeLogger methods in logger.go: a
for-range loop over the held loggers calling the same-named method on each;
the emitted events concatenate in loop order. -/
def compositeDispatch (loggers : List TraceSink) (m : Method) : List TEvent :=
  (loggers.map (fun lg => lg.invoke m)).flatten

/-- The invocation events among a trace, in order. -/
def invokedOf (es : List TEvent) : List TEvent :=
  es.filter (fun e =>
    match e with
    | TEvent.invoked _ _ => true
    | _ => false)

/-- A concrete sink as configured in main.go, viewed through the entry it
constructs: both sink types begin every severity method with their own
createLogEntry call, which performs exactly one time.Now() read. -/
inductive SinkCfg where
  | dbSink (l : DBLogger)
  | cwSink (l : CloudWatchLogger)
  deriving DecidableEq, Repr

/-- The LogEntry a configured sink constructs when its method runs with the
clock reading now. -/
def SinkCfg.mkEntry : SinkCfg → Nat → GoContext → LogLevel → String →
    Option String → List GoMap → LogEntry
  | SinkCfg.dbSink l, now, ctx, level, message, err, md =>
    l.createLogEntry now ctx level message err md
  | SinkCfg.cwSink l, now, ctx, level, message, err, md =>
    l.createLogEntry now ctx level message err md

/-- The entries constructed during one composite call: the loop visits the
sinks in configuration order, and each sink reads the clock once inside its
own createLogEntry, so the k-th sink observes the instant tick k counts of
time.Now() after the first. tick maps the running count of clock reads to
the instant returned; any real execution is one choice of tick. -/
def compositeEntries (sinks : List SinkCfg) (tick : Nat → Nat) (k : Nat)
    (ctx : GoContext) (level : LogLevel) (message : String)
    (err : Option String) (md : List GoMap) : List LogEntry :=
  match sinks with
  | [] => []
  | s :: rest =>
    s.mkEntry (tick k) ctx level message err md ::
      compositeEntries rest tick (k + 1) ctx level message err md

/-- The environment of one full pipeline call: the clock, the database
round-trip results and the PutMetricData result. -/
structure RunEnv where
  tick : Nat → Nat
  db : DBEnv
  cwPut : Except String Unit

/-- Observable outcome of one call on the composite logger wired in
main.go, namely NewCompositeLogger(cloudWatchLogger, dbLogger): the metrics
sink output followed by the database sink output. -/
structure CompOut where
  cwConsole : List String
  datum : Option MetricDatum
  dbConsole : List String
  inserted : Option InsertedRow
  deriving DecidableEq, Repr

/-- One severity call on the composite logger of main.go, under the
translation convention that an error or panic escaping the call would
appear as Except.error: the loop first runs the metrics sink method, then
the database sink method, each on its own freshly constructed entry (one
clock read each), and since every failure branch of both sinks prints and
continues, the translation only ever produces Except.ok. -/
def compositeCallE (cw : CloudWatchLogger) (db : DBLogger) (env : RunEnv)
    (k : Nat) (ctx : GoContext) (level : LogLevel) (message : String)
    (err : Option String) (metadata : List GoMap) : Except String CompOut :=
  let cwOut := cw.logCall env.cwPut (env.tick k) ctx level message err metadata
  let dbOut := db.logCall env.db (env.tick (k + 1)) ctx level message err metadata
  Except.ok
    { cwConsole := cwOut.console, datum := cwOut.datum,
      dbConsole := dbOut.console, inserted := dbOut.inserted }

/-- A standalone severity call on the database sink under the same
translation convention as compositeCallE. -/
def DBLogger.logCallE (l : DBLogger) (env : DBEnv) (now : Nat)
    (ctx : GoContext) (level : LogLevel) (message : String)
    (err : Option String) (metadata : List GoMap) : Except String DBOut :=
  Except.ok (l.logCall env now ctx level message err metadata)

/-- A standalone severity call on the metrics sink under the same
translation convention as compositeCallE. -/
def CloudWatchLogger.logCallE (l : CloudWatchLogger)
    (putRes : Except String Unit) (now : Nat) (ctx : GoContext)
    (level : LogLevel) (message : String) (err : Option String)
    (metadata : List GoMap) : Except String CWOut :=
  Except.ok (l.logCall putRes now ctx level message err metadata)

/-- The string promoted out of a metadata lookup result: the value when the
lookup found a string, the zero-valued string otherwise. This is the
residue of the Go comma-ok type assertion in createLogEntry. -/
def strOrEmpty : Option GoValue → String
  | some (GoValue.str s) => s
  | _ => ""

/-- The promotion contract of createLogEntry on one metadata map: the map
is attached unchanged, and each of the three promotable fields equals the
string value of its key when present and string-typed, and the empty
string otherwise. -/
def promotionSpec (e : LogEntry) (m : AssocMap) : Prop :=
  e.Metadata = some m ∧
  (∀ a, lookupKey m "action" = some (GoValue.str a) → e.Action = a) ∧
  ((∀ a, lookupKey m "action" ≠ some (GoValue.str a)) → e.Action = "") ∧
  (∀ r, lookupKey m "resource" = some (GoValue.str r) → e.Resource = r) ∧
  ((∀ r, lookupKey m "resource" ≠ some (GoValue.str r)) → e.Resource = "") ∧
  (∀ i, lookupKey m "resource_id" = some (GoValue.str i) → e.ResourceID = i) ∧
  ((∀ i, lookupKey m "resource_id" ≠ some (GoValue.str i)) → e.ResourceID = "")

/-- A lookup result that is not a string promotes to the empty string. -/
theorem strOrEmpty_of_ne (o : Option GoValue) (h : ∀ s, o ≠ some (GoValue.str s)) :
    strOrEmpty o = "" := by
  cases o with
  | none => rfl
  | some v => cases v with
    | str s => exact absurd rfl (h s)
    | intV n => rfl
    | boolV b => rfl
    | chanV => rfl

/-- Closed form of DBLogger.createLogEntry when exactly one non-nil
metadata map is passed. -/
theorem db_createLogEntry_single (l : DBLogger) (now : Nat) (ctx : GoContext)
    (level : LogLevel) (message : String) (err : Option String) (m : AssocMap) :
    l.createLogEntry now ctx level message err [some m] =
      { Timestamp := now, Level := level, Message := message,
        ServiceName := l.serviceName,
        RequestID := GetRequestIDFromContext ctx,
        UserID := GetUserIDFromContext ctx,
        Action := strOrEmpty (lookupKey m "action"),
        Resource := strOrEmpty (lookupKey m "resource"),
        ResourceID := strOrEmpty (lookupKey m "resource_id"),
        Metadata := some m, Error := err } := by
  dsimp only [DBLogger.createLogEntry]
  split <;> split <;> split <;> simp_all [strOrEmpty]

/-- Closed form of CloudWatchLogger.createLogEntry when exactly one non-nil
metadata map is passed. -/
theorem cw_createLogEntry_single (l : CloudWatchLogger) (now : Nat) (ctx : GoContext)
    (level : LogLevel) (message : String) (err : Option String) (m : AssocMap) :
    l.createLogEntry now ctx level message err [some m] =
      { Timestamp := now, Level := level, Message := message,
        ServiceName := l.serviceName,
        RequestID := GetRequestIDFromContext ctx,
        UserID := GetUserIDFromContext ctx,
        Action := strOrEmpty (lookupKey m "action"),
        Resource := strOrEmpty (lookupKey m "resource"),
        ResourceID := strOrEmpty (lookupKey m "resource_id"),
        Metadata := some m, Error := err } := by
  dsimp only [CloudWatchLogger.createLogEntry]
  split <;> split <;> split <;> simp_all [strOrEmpty]

/-- Internal effects of a sub-sink contribute no invocation events. -/
theorem filter_internal_nil (sid : Nat) (lines : List String) :
    ((lines.map (TEvent.internalLine sid)).filter (fun e =>
      match e with
      | TEvent.invoked _ _ => true
      | _ => false)) = [] := by
  induction lines with
  | nil => rfl
  | cons x xs ih => simpa [List.filter] using ih

/-- C1. The claim states that the metric name is the level and the resource
joined by an underscore, and that for an entry with an empty resource it is
exactly the level string with no trailing separator. The code formats the
name before testing it against the empty string, so the degradation guard
never fires: at the explicit entry below, with level INFO and empty
resource, the emitted metric name is the string INFO followed by an
underscore, not the bare level string the claim requires. -/
theorem c1_metric_name_trailing_separator :
    metricNameOf
      { Timestamp := 0, Level := LogLevel.INFO, Message := "request",
        ServiceName := "site-geav-api", RequestID := "", UserID := 0 } = "INFO_" ∧
    ("INFO_" : String) ≠ "INFO" := by
  constructor
  · rfl
  · decide

/-- C2. For every metadata map passed to a severity method of either sink,
the constructed LogEntry keeps the map attached unchanged (so the promoted
keys remain present in it), and the action, resource and resource_id fields
equal the string values of the same-named keys when those keys hold
strings, and are the empty string when the key is absent or holds a
non-string value. Quantifying over the level and the optional error covers
all five severity methods of both sinks, since each method passes exactly
its level and error through the shared construction. -/
theorem c2_metadata_promotion (ldb : DBLogger) (lcw : CloudWatchLogger)
    (now : Nat) (ctx : GoContext) (level : LogLevel) (message : String)
    (err : Option String) (m : AssocMap) :
    promotionSpec (ldb.createLogEntry now ctx level message err [some m]) m ∧
    promotionSpec (lcw.createLogEntry now ctx level message err [some m]) m := by
  rw [promotionSpec, promotionSpec, db_createLogEntry_single, cw_createLogEntry_single]
  refine ⟨⟨rfl, ?_, ?_, ?_, ?_, ?_, ?_⟩, ⟨rfl, ?_, ?_, ?_, ?_, ?_, ?_⟩⟩ <;>
    first
    | (intro a h; simp [h, strOrEmpty])
    | (intro h; exact strOrEmpty_of_ne _ h)

/-- Witness for C2: a fully populated metadata map promotes its action
value on the database sink, and an int-typed resource key on the metrics
sink leaves the resource field empty. -/
theorem c2_metadata_promotion_witness :
    ((DBLogger.mk "site-geav-api" "api_logs").createLogEntry 0 none
      LogLevel.ERROR "boom" (some "context deadline exceeded")
      [some [("action", GoValue.str "CreateUser"), ("resource", GoValue.str "users"),
             ("resource_id", GoValue.str "42")]]).Action = "CreateUser" ∧
    ((CloudWatchLogger.mk "site-geav-api" "SiteGeav/API").createLogEntry 0 none
      LogLevel.INFO "request" none
      [some [("resource", GoValue.intV 7)]]).Resource = "" := by
  constructor
  · exact (((c2_metadata_promotion (DBLogger.mk "site-geav-api" "api_logs")
      (CloudWatchLogger.mk "site-geav-api" "SiteGeav/API") 0 none LogLevel.ERROR
      "boom" (some "context deadline exceeded")
      [("action", GoValue.str "CreateUser"), ("resource", GoValue.str "users"),
       ("resource_id", GoValue.str "42")]).1).2.1) "CreateUser" rfl
  · exact (((c2_metadata_promotion (DBLogger.mk "site-geav-api" "api_logs")
      (CloudWatchLogger.mk "site-geav-api" "SiteGeav/API") 0 none LogLevel.INFO
      "request" none [("resource", GoValue.intV 7)]).2).2.2.2.2.1)
      (fun r hr => by simp [lookupKey, List.find?] at hr)

/-- C3 counterexample. The claim states that a call without an error
argument inserts an absent or null error_message. At the explicit input
below, an Info call with no error and an all-successful environment, the
database sink inserts a row whose error_message binding is the non-null
empty string, because the Go code always passes the errorMessage string
variable to the INSERT and a Go string parameter never binds SQL NULL. -/
theorem c3_error_message_not_null_cex :
    (((DBLogger.mk "site-geav-api" "api_logs").logToDB
        { ensureRes := Except.ok (), execRes := Except.ok () }
        ((DBLogger.mk "site-geav-api" "api_logs").createLogEntry 0 none
          LogLevel.INFO "request" none [])).inserted).map
      (fun r => r.ErrorMessage) = some (some "") ∧
    (some "" : Option String) ≠ none := by
  constructor
  · rfl
  · decide

/-- C3 amended. Every row the database sink inserts carries a non-null
error_message binding: the empty string for a call without an error, and
exactly the error message text for a call with a non-nil error. -/
theorem c3_error_message_text (l : DBLogger) (env : DBEnv) (entry : LogEntry)
    (row : InsertedRow) (h : (l.logToDB env entry).inserted = some row) :
    (entry.Error = none → row.ErrorMessage = some "") ∧
    (∀ msg, entry.Error = some msg → row.ErrorMessage = some msg) := by
  dsimp only [DBLogger.logToDB] at h
  split at h
  · exact absurd h (by simp)
  · split at h
    · exact absurd h (by simp)
    · split at h
      · exact absurd h (by simp)
      · simp only [Option.some.injEq] at h
        subst h
        constructor
        · intro he; simp [he]
        · intro msg he; simp [he]

/-- Witness for C3 amended: the concrete no-error Info call of the
counterexample inserts the row shown, whose error_message is the non-null
empty string. -/
theorem c3_error_message_text_witness :
    ((DBLogger.mk "site-geav-api" "api_logs").createLogEntry 0 none
      LogLevel.INFO "request" none []).Error = none ∧
    (InsertedRow.mk 0 "INFO" "request" "site-geav-api" "" 0 "" "" "" none
      (some "")).ErrorMessage = some "" := by
  refine ⟨rfl, ?_⟩
  have h := c3_error_message_text (DBLogger.mk "site-geav-api" "api_logs")
    { ensureRes := Except.ok (), execRes := Except.ok () }
    ((DBLogger.mk "site-geav-api" "api_logs").createLogEntry 0 none
      LogLevel.INFO "request" none [])
    (InsertedRow.mk 0 "INFO" "request" "site-geav-api" "" 0 "" "" "" none
      (some "")) rfl
  exact h.1 rfl

/-- C4. For every severity method called on a composite logger holding any
list of sub-sinks, whatever each sub-sink does internally (including
failing and reporting on its fallback channel), the invocation events of
the dispatch are exactly one same-named call per sub-sink, in configuration
order. -/
theorem c4_composite_dispatch_order (loggers : List TraceSink) (m : Method) :
    invokedOf (compositeDispatch loggers m) =
      loggers.map (fun s => TEvent.invoked s.id m) := by
  induction loggers with
  | nil => rfl
  | cons s rest ih =>
    simp only [compositeDispatch, List.map_cons, List.flatten_cons, invokedOf,
      List.filter_append, TraceSink.invoke, List.filter_cons] at ih ⊢
    simpa [filter_internal_nil s.id (s.internalFx m)] using ih

/-- C5. For every call on the composite logger of main.go and on each sink
standalone, and for every outcome of the table creation, the metadata
serialization, the row insertion and the remote metrics call, the call
returns normally (the translation never produces an error result), and each
failing operation is surfaced as its fallback console line: the table
failure and, when the earlier stages allow the later ones to run, the
metadata marshaling failure, the insertion failure, the entry marshaling
failure and the metrics failure. -/
theorem c5_no_error_propagation (cw : CloudWatchLogger) (db : DBLogger)
    (env : RunEnv) (k : Nat) (ctx : GoContext) (level : LogLevel)
    (message : String) (err : Option String) (metadata : List GoMap) :
    ∃ out, compositeCallE cw db env k ctx level message err metadata = Except.ok out ∧
      (db.logCallE env.db (env.tick (k + 1)) ctx level message err metadata).isOk = true ∧
      (cw.logCallE env.cwPut (env.tick k) ctx level message err metadata).isOk = true ∧
      (∀ e, env.db.ensureRes = Except.error e →
        ("Error ensuring log table: " ++ e) ∈ out.dbConsole) ∧
      (∀ e, env.db.ensureRes = Except.ok () →
        metadataJSONOf (db.createLogEntry (env.tick (k + 1)) ctx level message err metadata) =
          Except.error e →
        ("Error marshaling metadata: " ++ e) ∈ out.dbConsole) ∧
      (∀ e mj, env.db.ensureRes = Except.ok () →
        metadataJSONOf (db.createLogEntry (env.tick (k + 1)) ctx level message err metadata) =
          Except.ok mj →
        env.db.execRes = Except.error e →
        ("Error inserting log entry: " ++ e) ∈ out.dbConsole) ∧
      (∀ e, marshalEntry (cw.createLogEntry (env.tick k) ctx level message err metadata) =
          Except.error e →
        ("Error marshaling log entry: " ++ e) ∈ out.cwConsole) ∧
      (∀ e j, env.cwPut = Except.error e →
        marshalEntry (cw.createLogEntry (env.tick k) ctx level message err metadata) =
          Except.ok j →
        ("Error sending metric to CloudWatch: " ++ e) ∈ out.cwConsole) := by
  refine ⟨_, rfl, rfl, rfl, ?_, ?_, ?_, ?_, ?_⟩
  · intro e he
    simp [compositeCallE, DBLogger.logCall, DBLogger.logToDB, he]
  · intro e h1 h2
    simp [compositeCallE, DBLogger.logCall, DBLogger.logToDB, h1, h2]
  · intro e mj h1 h2 h3
    simp [compositeCallE, DBLogger.logCall, DBLogger.logToDB, h1, h2, h3]
  · intro e h
    simp [compositeCallE, CloudWatchLogger.logCall, CloudWatchLogger.logToCloudWatch, h]
  · intro e j he hj
    simp [compositeCallE, CloudWatchLogger.logCall, CloudWatchLogger.logToCloudWatch, he, hj]

/-- Witness for C5: with the table creation and the metrics call both
failing, the composite call still returns normally and both failures appear
as fallback console lines. -/
theorem c5_no_error_propagation_witness :
    ∃ out,
      compositeCallE (CloudWatchLogger.mk "site-geav-api" "SiteGeav/API")
        (DBLogger.mk "site-geav-api" "api_logs")
        { tick := fun n => n,
          db := { ensureRes := Except.error "connection refused", execRes := Except.ok () },
          cwPut := Except.error "no such host" }
        0 none LogLevel.INFO "request" none [] = Except.ok out ∧
      ("Error ensuring log table: " ++ "connection refused") ∈ out.dbConsole ∧
      ("Error sending metric to CloudWatch: " ++ "no such host") ∈ out.cwConsole := by
  obtain ⟨out, hok, _, _, h4, _, _, _, h8⟩ :=
    c5_no_error_propagation (CloudWatchLogger.mk "site-geav-api" "SiteGeav/API")
      (DBLogger.mk "site-geav-api" "api_logs")
      { tick := fun n => n,
        db := { ensureRes := Except.error "connection refused", execRes := Except.ok () },
        cwPut := Except.error "no such host" }
      0 none LogLevel.INFO "request" none []
  refine ⟨out, hok, h4 "connection refused" rfl, ?_⟩
  exact h8 "no such host"
    (entryScalarJSON ((CloudWatchLogger.mk "site-geav-api" "SiteGeav/API").createLogEntry
      0 none LogLevel.INFO "request" none [])) rfl rfl

/-- C6 counterexample. The claim states that one LogEntry is constructed
per composite call and handed with an identical timestamp to every sink. At
the explicit input below, the composite of main.go (metrics sink then
database sink) over a clock that advances by one per read constructs two
entries whose timestamps are zero and one, so the sinks do not observe an
identical entry. -/
theorem c6_shared_entry_cex :
    (compositeEntries
        [SinkCfg.cwSink (CloudWatchLogger.mk "site-geav-api" "SiteGeav/API"),
         SinkCfg.dbSink (DBLogger.mk "site-geav-api" "api_logs")]
        (fun n => n) 0 none LogLevel.INFO "request" none []).map
      (fun e => e.Timestamp) = [0, 1] ∧ (0 : Nat) ≠ 1 := by
  constructor
  · rfl
  · decide

/-- C6 amended. For every logging call on the composite logger, each
configured sink constructs its own fresh LogEntry, one per sink in
configuration order (so exactly as many entries as sinks), and the entry of
the sink at position p carries the clock reading taken at that sink's own
createLogEntry call; timestamps are therefore taken independently per sink
rather than shared. -/
theorem c6_entry_per_sink (sinks : List SinkCfg) (tick : Nat → Nat) (k : Nat)
    (ctx : GoContext) (level : LogLevel) (message : String)
    (err : Option String) (md : List GoMap) :
    compositeEntries sinks tick k ctx level message err md =
      (List.enumFrom k sinks).map
        (fun p => p.2.mkEntry (tick p.1) ctx level message err md) ∧
    (compositeEntries sinks tick k ctx level message err md).length = sinks.length := by
  constructor
  · induction sinks generalizing k with
    | nil => rfl
    | cons s rest ih => simp [compositeEntries, List.enumFrom, ih]
  · induction sinks generalizing k with
    | nil => rfl
    | cons s rest ih => simp [compositeEntries, ih]

/-- C7 counterexample. The claim states the request-id header is read under
a case-insensitive key, so that the spellings X-Request-Id and x-request-id
populate the same context value. At the explicit inputs below the router
leaves the context empty for the capitalised spelling and populates it for
the lowercase one, because Go map indexing compares keys exactly. -/
theorem c7_case_sensitive_header_cex :
    GetRequestIDFromContext
      (some (routerContext [] ⟨[("X-Request-Id", "abc")], "GET", "/users"⟩)) = "" ∧
    GetRequestIDFromContext
      (some (routerContext [] ⟨[("x-request-id", "abc")], "GET", "/users"⟩)) = "abc" ∧
    ("" : String) ≠ "abc" := by
  refine ⟨rfl, rfl, by decide⟩

/-- C7 amended. The router reads the request-id header under the exact,
case-sensitive key x-request-id: when that exact key is present its value
becomes the request id visible in the context, when it is absent the
context passes through unchanged, and the router never injects a user id,
so the user id visible in the context is whatever the inbound context
already carried. -/
theorem c7_router_context (ctx : List (String × CtxVal)) (request : APIGatewayRequest) :
    (∀ v, headerLookup request.Headers "x-request-id" = some v →
      GetRequestIDFromContext (some (routerContext ctx request)) = v) ∧
    (headerLookup request.Headers "x-request-id" = none →
      routerContext ctx request = ctx) ∧
    GetUserIDFromContext (some (routerContext ctx request)) =
      GetUserIDFromContext (some ctx) := by
  refine ⟨?_, ?_, ?_⟩
  · intro v hv
    simp [routerContext, hv, GetRequestIDFromContext, ctxLookup]
  · intro h
    simp [routerContext, h]
  · unfold routerContext
    cases h : headerLookup request.Headers "x-request-id" with
    | none => rfl
    | some v =>
      simp [GetUserIDFromContext, ctxLookup, List.find?]

/-- Witness for C7 amended: a lowercase header is injected and an existing
user id binding is preserved untouched. -/
theorem c7_router_context_witness :
    GetRequestIDFromContext
      (some (routerContext [("userID", CtxVal.intV 7)]
        ⟨[("x-request-id", "abc")], "GET", "/users"⟩)) = "abc" ∧
    GetUserIDFromContext
      (some (routerContext [("userID", CtxVal.intV 7)]
        ⟨[("x-request-id", "abc")], "GET", "/users"⟩)) = 7 := by
  have h := c7_router_context [("userID", CtxVal.intV 7)]
    ⟨[("x-request-id", "abc")], "GET", "/users"⟩
  refine ⟨h.1 "abc" rfl, ?_⟩
  rw [h.2.2]; rfl

/-- C8. The context extraction functions are total Lean functions, and on
every input that the claim calls absent they return the absent value: a nil
context yields the empty string and zero, a context without the key yields
the empty string and zero, and a context whose value under the key has the
wrong dynamic type yields the empty string and zero; when the key holds a
correctly typed value that value is returned. -/
theorem c8_context_extraction_total (ctx : GoContext) :
    (ctx = none → GetRequestIDFromContext ctx = "" ∧ GetUserIDFromContext ctx = 0) ∧
    (∀ l, ctx = some l → ctxLookup l "requestID" = none →
      GetRequestIDFromContext ctx = "") ∧
    (∀ l v, ctx = some l → ctxLookup l "requestID" = some v →
      (∀ s, v ≠ CtxVal.str s) → GetRequestIDFromContext ctx = "") ∧
    (∀ l s, ctx = some l → ctxLookup l "requestID" = some (CtxVal.str s) →
      GetRequestIDFromContext ctx = s) ∧
    (∀ l, ctx = some l → ctxLookup l "userID" = none →
      GetUserIDFromContext ctx = 0) ∧
    (∀ l v, ctx = some l → ctxLookup l "userID" = some v →
      (∀ n, v ≠ CtxVal.intV n) → GetUserIDFromContext ctx = 0) ∧
    (∀ l n, ctx = some l → ctxLookup l "userID" = some (CtxVal.intV n) →
      GetUserIDFromContext ctx = n) := by
  refine ⟨?_, ?_, ?_, ?_, ?_, ?_, ?_⟩
  · intro h; subst h; exact ⟨rfl, rfl⟩
  · intro l h hl; subst h; simp [GetRequestIDFromContext, hl]
  · intro l v h hl hv; subst h
    cases v with
    | str s => exact absurd rfl (hv s)
    | intV n => simp [GetRequestIDFromContext, hl]
    | other => simp [GetRequestIDFromContext, hl]
  · intro l s h hl; subst h; simp [GetRequestIDFromContext, hl]
  · intro l h hl; subst h; simp [GetUserIDFromContext, hl]
  · intro l v h hl hv; subst h
    cases v with
    | intV n => exact absurd rfl (hv n)
    | str s => simp [GetUserIDFromContext, hl]
    | other => simp [GetUserIDFromContext, hl]
  · intro l n h hl; subst h; simp [GetUserIDFromContext, hl]

/-- Witness for C8: a context holding an int under requestID and a string
under userID yields the absent values for both extractions. -/
theorem c8_context_extraction_total_witness :
    GetRequestIDFromContext
      (some [("requestID", CtxVal.intV 5), ("userID", CtxVal.str "x")]) = "" ∧
    GetUserIDFromContext
      (some [("requestID", CtxVal.intV 5), ("userID", CtxVal.str "x")]) = 0 := by
  have h := c8_context_extraction_total
    (some [("requestID", CtxVal.intV 5), ("userID", CtxVal.str "x")])
  refine ⟨?_, ?_⟩
  · exact h.2.2.1 _ (CtxVal.intV 5) rfl rfl (fun s hs => by cases hs)
  · exact h.2.2.2.2.2.1 _ (CtxVal.str "x") rfl rfl (fun n hn => by cases hn)

/-- C9. When the metadata map of a call fails JSON serialization and the
table-creation step succeeds, the database sink of the composite call
inserts no row and reports the serialization failure on its fallback
console, while the metrics sink output of the same fan-out call equals a
standalone metrics-sink run on the very same call, so the other sink is
unaffected by the database-sink failure. -/
theorem c9_marshal_failure_isolated (cw : CloudWatchLogger) (db : DBLogger)
    (env : RunEnv) (k : Nat) (ctx : GoContext) (level : LogLevel)
    (message : String) (err : Option String) (m : AssocMap) (e : String)
    (hok : env.db.ensureRes = Except.ok ())
    (hm : marshalMap m = Except.error e) :
    ∃ out, compositeCallE cw db env k ctx level message err [some m] = Except.ok out ∧
      out.inserted = none ∧
      ("Error marshaling metadata: " ++ e) ∈ out.dbConsole ∧
      out.cwConsole = (cw.logCall env.cwPut (env.tick k) ctx level message err [some m]).console ∧
      out.datum = (cw.logCall env.cwPut (env.tick k) ctx level message err [some m]).datum := by
  refine ⟨_, rfl, ?_, ?_, rfl, rfl⟩
  · simp [compositeCallE, DBLogger.logCall, DBLogger.logToDB, hok,
      metadataJSONOf, db_createLogEntry_single, hm, Except.map]
  · simp [compositeCallE, DBLogger.logCall, DBLogger.logToDB, hok,
      metadataJSONOf, db_createLogEntry_single, hm, Except.map]

/-- Witness for C9: a metadata map holding a channel value fails to
marshal; the database sink inserts nothing and reports, and the metrics
sink output equals its standalone run. -/
theorem c9_marshal_failure_isolated_witness :
    ∃ out,
      compositeCallE (CloudWatchLogger.mk "site-geav-api" "SiteGeav/API")
        (DBLogger.mk "site-geav-api" "api_logs")
        { tick := fun n => n,
          db := { ensureRes := Except.ok (), execRes := Except.ok () },
          cwPut := Except.ok () }
        0 none LogLevel.INFO "request" none
        [some [("payload", GoValue.chanV)]] = Except.ok out ∧
      out.inserted = none ∧
      ("Error marshaling metadata: " ++ "json: unsupported type: chan") ∈ out.dbConsole ∧
      out.cwConsole = ((CloudWatchLogger.mk "site-geav-api" "SiteGeav/API").logCall
        (Except.ok ()) 0 none LogLevel.INFO "request" none
        [some [("payload", GoValue.chanV)]]).console ∧
      out.datum = ((CloudWatchLogger.mk "site-geav-api" "SiteGeav/API").logCall
        (Except.ok ()) 0 none LogLevel.INFO "request" none
        [some [("payload", GoValue.chanV)]]).datum :=
  c9_marshal_failure_isolated _ _ _ 0 none LogLevel.INFO "request" none
    [("payload", GoValue.chanV)] "json: unsupported type: chan" rfl rfl

/-- C10. When more than one metadata map is passed through the variadic
parameter of a severity method, the constructed LogEntry is identical to
the one constructed from the first map alone, on both sinks: the later maps
are ignored for attachment and for key promotion. -/
theorem c10_first_metadata_only (ldb : DBLogger) (lcw : CloudWatchLogger)
    (now : Nat) (ctx : GoContext) (level : LogLevel) (message : String)
    (err : Option String) (m1 m2 : GoMap) (rest : List GoMap) :
    ldb.createLogEntry now ctx level message err (m1 :: m2 :: rest) =
      ldb.createLogEntry now ctx level message err [m1] ∧
    lcw.createLogEntry now ctx level message err (m1 :: m2 :: rest) =
      lcw.createLogEntry now ctx level message err [m1] := by
  constructor <;> rfl

end SiteGeav
